import Mathlib

/-!
Shallow embedding of `mlagents/trainers/environment_parameter_manager.py`
(class `EnvironmentParameterManager`) and verification of its specification.

Python floats are modelled as exact rationals; reward-buffer entries and the
numpy mean are modelled by `Flt`, a rational extended with a NaN element, so
that the `math.isnan` guard in `_need_increment` is represented faithfully.
All concrete values appearing in the claims (0.25, 0.75, 0.9375, ...) are
dyadic, and the float comparisons they take part in agree with the exact
rational comparisons, so the rational model is faithful on the claims.

The settings record types (`CompletionCriteriaSettings`, `Lesson`, ...) come
from `mlagents/trainers/settings.py`, which is not part of the sources here;
their fields are modelled from the spec's data model (Section 3): a criteria
carries a behavior name, a measure kind in {PROGRESS, REWARD}, a numeric
threshold, a numeric minimum reward-buffer length, a smoothing flag and a
reset flag; a lesson carries a name, a sampler (with an integer seed field,
sentinel -1 = unassigned) and an optional criteria.
-/

namespace MLAgentsEPM

/-- Measure kind of a completion criteria. Modelled from the spec: closed
variant {PROGRESS, REWARD} (spec Section 3), matching
`CompletionCriteriaSettings.MeasureType` of `settings.py` which is not in
the sources. -/
inductive MeasureType where
  | PROGRESS : MeasureType
  | REWARD : MeasureType
  deriving DecidableEq, Repr

/-- Modelled from the spec: `CompletionCriteriaSettings` of `settings.py`
(not in the sources) — target behavior, measure kind, numeric threshold,
minimum reward-buffer length (a Python int, no lower bound imposed),
smoothing-enabled flag, reset-required flag. -/
structure CompletionCriteriaSettings where
  behavior : String
  measure : MeasureType
  min_lesson_length : Int
  threshold : ℚ
  signal_smoothing : Bool
  require_reset : Bool
  deriving DecidableEq, Repr

/-- Modelled from the spec: a sampler is a randomization-distribution
descriptor carrying its own integer seed field, with sentinel value -1
meaning "unassigned" (spec Section 3). Only the seed is relevant here. -/
structure ParameterRandomizationSettings where
  seed : Int
  deriving DecidableEq, Repr

/-- Modelled from the spec: a lesson has a name, a sampler and an optional
completion criteria (spec Section 3). -/
structure Lesson where
  name : String
  sampler : ParameterRandomizationSettings
  completion_criteria : Option CompletionCriteriaSettings
  deriving DecidableEq, Repr

/-- Modelled from the spec: an environment parameter's settings are its
ordered sequence of lessons (spec Section 3), accessed as
`settings.lessons` by the manager. -/
structure EnvironmentParameterSettings where
  lessons : List Lesson
  deriving DecidableEq, Repr

/-- A Python float that is either NaN or an exact rational. -/
inductive Flt where
  | nan : Flt
  | val (q : ℚ) : Flt
  deriving DecidableEq, Repr

/-- `math.isnan`. -/
def Flt.isNaN : Flt → Bool
  | .nan => true
  | .val _ => false

/-- NaN-propagating addition (as in IEEE floats restricted to this model). -/
def Flt.add : Flt → Flt → Flt
  | .nan, _ => .nan
  | .val _, .nan => .nan
  | .val a, .val b => .val (a + b)

/-- Sum of a list of floats, NaN if any entry is NaN. -/
def fltSum (l : List Flt) : Flt := l.foldr Flt.add (.val 0)

/-- `np.mean` on a list of floats: NaN on the empty list (numpy returns NaN
with a warning) or when any entry is NaN; otherwise the exact average. -/
def npMean (l : List Flt) : Flt :=
  match fltSum l with
  | .nan => .nan
  | .val s => if l.length = 0 then .nan else .val (s / (l.length : ℚ))

/-- Embeds `EnvironmentParameterManager._need_increment`: gate on the reward
buffer length, then the PROGRESS check, then the REWARD check (empty-buffer
guard, NaN-mean guard, optional smoothing update, strict threshold test),
with fall-through returning `(False, smoothing)`. -/
def need_increment (increment_condition : CompletionCriteriaSettings)
    (progress : ℚ) (reward_buffer : List Flt) (smoothing : ℚ) : Bool × ℚ :=
  -- Is the min number of episodes reached
  if (reward_buffer.length : Int) < increment_condition.min_lesson_length then
    (false, smoothing)
  else if increment_condition.measure = MeasureType.PROGRESS
      ∧ increment_condition.threshold < progress then
    (true, smoothing)
  else if increment_condition.measure = MeasureType.REWARD then
    if reward_buffer.length < 1 then (false, smoothing)
    else
      match npMean reward_buffer with
      | .nan => (false, smoothing)
      | .val m =>
        let measure : ℚ :=
          if increment_condition.signal_smoothing then 0.25 * smoothing + 0.75 * m else m
        let smoothing1 : ℚ :=
          if increment_condition.signal_smoothing then measure else smoothing
        if increment_condition.threshold < measure then (true, smoothing1)
        else (false, smoothing1)
  else (false, smoothing)

/-- Python exceptions that the embedded code can raise. -/
inductive PyErr where
  | keyError : PyErr
  | indexError : PyErr
  | typeError : PyErr
  | zeroDivisionError : PyErr
  deriving DecidableEq, Repr

/-- Python list indexing `l[i]` with an int index: nonnegative indices in
range, negative indices wrapping from the end, `none` = `IndexError`. -/
def pyGet (l : List Lesson) (i : Int) : Option Lesson :=
  if 0 ≤ i then l.get? i.toNat
  else if 0 ≤ i + l.length then l.get? (i + l.length).toNat
  else none

/-- The manager's mutable state: the external persisted store holding each
parameter's LessonIndex (`GlobalTrainingStatus`, key `LESSON_NUM`), and the
in-memory `_smoothing_values` dictionary. -/
structure ManagerState where
  store : String → Option Int
  smoothing : String → ℚ

/-- `GlobalTrainingStatus.set_parameter_state` for `LESSON_NUM`. -/
def ManagerState.setLesson (st : ManagerState) (name : String) (v : Int) :
    ManagerState :=
  { st with store := fun k => if k = name then some v else st.store k }

/-- Update of `self._smoothing_values[name]`. -/
def ManagerState.setSmoothing (st : ManagerState) (name : String) (v : ℚ) :
    ManagerState :=
  { st with smoothing := fun k => if k = name then v else st.smoothing k }

/-- The body of the `update_lessons` loop for one parameter, embedded in the
source's evaluation order: read the persisted lesson number (`None` would
make the following indexing raise a TypeError), index into the lessons, test
`completion_criteria is not None and len(lessons) > lesson_num`, look up the
behavior's step count, max step count (Python raises ZeroDivisionError on a
zero denominator before evaluating the later arguments) and reward buffer,
run `_need_increment`, store the new smoothing value, and on increment
persist `lesson_num + 1` and then index `lessons[lesson_num + 1]` for the
log message (an IndexError here happens after the store write). The state
reached so far is returned even when an exception is raised, since the
store and smoothing writes are in-place effects. -/
def processParam (steps maxSteps : String → Option Int)
    (bufs : String → Option (List Flt)) (param_name : String)
    (settings : EnvironmentParameterSettings) (st : ManagerState)
    (updated must_reset : Bool) :
    Except PyErr (Bool × Bool) × ManagerState :=
  match st.store param_name with
  | none => (.error .typeError, st)
  | some lesson_num =>
    match pyGet settings.lessons lesson_num with
    | none => (.error .indexError, st)
    | some lesson =>
      match lesson.completion_criteria with
      | none => (.ok (updated, must_reset), st)
      | some c =>
        if lesson_num < (settings.lessons.length : Int) then
          match steps c.behavior with
          | none => (.error .keyError, st)
          | some stepCount =>
            match maxSteps c.behavior with
            | none => (.error .keyError, st)
            | some maxStepCount =>
              if maxStepCount = 0 then (.error .zeroDivisionError, st)
              else
                match bufs c.behavior with
                | none => (.error .keyError, st)
                | some buf =>
                  let r := need_increment c
                    ((stepCount : ℚ) / (maxStepCount : ℚ)) buf
                    (st.smoothing param_name)
                  let st1 := st.setSmoothing param_name r.2
                  if r.1 then
                    let st2 := st1.setLesson param_name (lesson_num + 1)
                    match pyGet settings.lessons (lesson_num + 1) with
                    | none => (.error .indexError, st2)
                    | some _ => (.ok (true, must_reset || c.require_reset), st2)
                  else (.ok (updated, must_reset), st1)
        else (.ok (updated, must_reset), st)

/-- The `update_lessons` loop over the parameters (Python dict iteration =
insertion order), threading the `updated` and `must_reset` accumulators; an
exception aborts the loop but keeps the state mutated so far. -/
def updateLessonsAux (steps maxSteps : String → Option Int)
    (bufs : String → Option (List Flt)) :
    List (String × EnvironmentParameterSettings) → ManagerState → Bool → Bool →
    Except PyErr (Bool × Bool) × ManagerState
  | [], st, updated, must_reset => (.ok (updated, must_reset), st)
  | (param_name, settings) :: rest, st, updated, must_reset =>
    match processParam steps maxSteps bufs param_name settings st updated must_reset with
    | (.error e, st1) => (.error e, st1)
    | (.ok (u1, r1), st1) => updateLessonsAux steps maxSteps bufs rest st1 u1 r1

/-- Embeds `EnvironmentParameterManager.update_lessons`: `must_reset` and
`updated` start false; returns `(updated, must_reset)` or the Python
exception, together with the final state. -/
def update_lessons (steps maxSteps : String → Option Int)
    (bufs : String → Option (List Flt))
    (params : List (String × EnvironmentParameterSettings))
    (st : ManagerState) : Except PyErr (Bool × Bool) × ManagerState :=
  updateLessonsAux steps maxSteps bufs params st false false

/-- Embeds the first loop of `EnvironmentParameterManager.__init__`: for
each parameter name, read the persisted lesson number and, when it is
absent or `restore` is false, write 0. Returns the final store together
with the list of `set_parameter_state` writes performed, in order. -/
def init_lesson_store (restore : Bool) :
    List String → (String → Option Int) →
    (String → Option Int) × List (String × Int)
  | [], store => (store, [])
  | n :: rest, store =>
    if (store n).isNone || !restore then
      let store1 : String → Option Int := fun k => if k = n then some 0 else store k
      let r := init_lesson_store restore rest store1
      (r.1, (n, 0) :: r.2)
    else
      init_lesson_store restore rest store

/-- The inner loop of `_set_sampler_seeds` over one parameter's lessons,
threading the running offset: a lesson whose sampler seed is the sentinel -1
receives `seed + offset` (and the offset advances); other lessons are left
untouched. -/
def setSeedsLessons (seed : Int) (offset : Nat) :
    List Lesson → List Lesson × Nat
  | [] => ([], offset)
  | l :: ls =>
    if l.sampler.seed = -1 then
      let l1 : Lesson := { l with sampler := { l.sampler with seed := seed + offset } }
      let r := setSeedsLessons seed (offset + 1) ls
      (l1 :: r.1, r.2)
    else
      let r := setSeedsLessons seed offset ls
      (l :: r.1, r.2)

/-- The outer loop of `_set_sampler_seeds` over the parameters, threading
the offset across parameters. -/
def setSeedsParams (seed : Int) (offset : Nat) :
    List (String × EnvironmentParameterSettings) →
    List (String × EnvironmentParameterSettings) × Nat
  | [] => ([], offset)
  | (n, s) :: rest =>
    let r0 := setSeedsLessons seed offset s.lessons
    let r := setSeedsParams seed r0.2 rest
    ((n, ⟨r0.1⟩) :: r.1, r.2)

/-- Embeds `EnvironmentParameterManager._set_sampler_seeds`: offset starts
at 0 and runs across all parameters in enumeration order. -/
def set_sampler_seeds (seed : Int)
    (params : List (String × EnvironmentParameterSettings)) :
    List (String × EnvironmentParameterSettings) :=
  (setSeedsParams seed 0 params).1

/-- Embeds `EnvironmentParameterManager.get_minimum_reward_buffer_size`:
`result` starts at 1 and takes `max` with `min_lesson_length` of every
lesson whose completion criteria targets `behavior_name`. -/
def get_minimum_reward_buffer_size
    (params : List (String × EnvironmentParameterSettings))
    (behavior_name : String) : Int :=
  params.foldl
    (fun result p =>
      p.2.lessons.foldl
        (fun result lesson =>
          match lesson.completion_criteria with
          | none => result
          | some c =>
            if c.behavior = behavior_name then max result c.min_lesson_length
            else result)
        result)
    1

/-- Concrete PROGRESS criteria of the spec's example: threshold 0.5,
minLessonLength 1. -/
def progressCriteria05 : CompletionCriteriaSettings :=
  ⟨"b", MeasureType.PROGRESS, 1, 0.5, true, false⟩

/-- Concrete REWARD criteria of the spec's example: smoothing enabled,
threshold 0.9, minLessonLength 4. -/
def rewardCriteria09 : CompletionCriteriaSettings :=
  ⟨"b", MeasureType.REWARD, 4, 0.9, true, false⟩

/-- The reward buffer `[1, 1, 1, 1]` of the spec's example. -/
def unitBuf4 : List Flt := [Flt.val 1, Flt.val 1, Flt.val 1, Flt.val 1]

/-- C3: the buffer-length gate applies to every measure kind: whenever the
reward buffer is strictly shorter than the criteria's minLessonLength, the
evaluator returns `(false, priorSmoothing)` for any measure kind, progress
value and prior smoothing value. -/
theorem claim_C3_buffer_gate_both_kinds (c : CompletionCriteriaSettings)
    (progress : ℚ) (reward_buffer : List Flt) (smoothing : ℚ)
    (h : (reward_buffer.length : Int) < c.min_lesson_length) :
    need_increment c progress reward_buffer smoothing = (false, smoothing) := by
  simp [need_increment, h]

/-- Witness for C3: a PROGRESS criteria with minLessonLength 4 and an empty
buffer, progress far above the threshold, still yields no advancement. -/
theorem claim_C3_buffer_gate_both_kinds_witness :
    ((([] : List Flt).length : Int) <
      (⟨"b", MeasureType.PROGRESS, 4, 0, true, false⟩ :
        CompletionCriteriaSettings).min_lesson_length) ∧
    need_increment ⟨"b", MeasureType.PROGRESS, 4, 0, true, false⟩ 1 [] 0
      = (false, 0) :=
  ⟨by decide,
   claim_C3_buffer_gate_both_kinds ⟨"b", MeasureType.PROGRESS, 4, 0, true, false⟩
     1 [] 0 (by decide)⟩

/-- C9: for a REWARD criteria passing the buffer-length gate with a
non-empty buffer, a NaN reward mean is recovered locally: the evaluator
returns `(false, priorSmoothing)`, with no advancement and no NaN written
into the smoothing state. -/
theorem claim_C9_nan_mean_recovered (c : CompletionCriteriaSettings)
    (progress : ℚ) (reward_buffer : List Flt) (smoothing : ℚ)
    (hm : c.measure = MeasureType.REWARD)
    (hg : ¬ ((reward_buffer.length : Int) < c.min_lesson_length))
    (hne : reward_buffer ≠ [])
    (hnan : npMean reward_buffer = Flt.nan) :
    need_increment c progress reward_buffer smoothing = (false, smoothing) := by
  simp [need_increment, hm, hg, hnan, Nat.lt_one_iff, List.length_eq_zero, hne]

/-- Witness for C9: a buffer containing a NaN passes the length gate and
yields no advancement with the smoothing value 0.3 passed through. -/
theorem claim_C9_nan_mean_recovered_witness :
    (⟨"b", MeasureType.REWARD, 1, 0, true, false⟩ :
        CompletionCriteriaSettings).measure = MeasureType.REWARD ∧
    ¬ ((([Flt.nan] : List Flt).length : Int) <
      (⟨"b", MeasureType.REWARD, 1, 0, true, false⟩ :
        CompletionCriteriaSettings).min_lesson_length) ∧
    ([Flt.nan] : List Flt) ≠ [] ∧
    npMean [Flt.nan] = Flt.nan ∧
    need_increment ⟨"b", MeasureType.REWARD, 1, 0, true, false⟩ 1 [Flt.nan] 0.3
      = (false, 0.3) :=
  ⟨rfl, by decide, by decide, rfl,
   claim_C9_nan_mean_recovered ⟨"b", MeasureType.REWARD, 1, 0, true, false⟩
     1 [Flt.nan] 0.3 rfl (by decide) (by decide) rfl⟩

/-- C8: for a PROGRESS criteria passing the buffer-length gate, the
evaluator increments iff `progress > threshold` strictly and passes the
smoothing value through unchanged; concretely, with threshold 0.5,
minLessonLength 1 and buffer `[0.0]`, progress 0.51 increments and progress
0.50 does not. -/
theorem claim_C8_progress_strict_threshold :
    (∀ (c : CompletionCriteriaSettings) (progress : ℚ)
        (reward_buffer : List Flt) (smoothing : ℚ),
      c.measure = MeasureType.PROGRESS →
      ¬ ((reward_buffer.length : Int) < c.min_lesson_length) →
      need_increment c progress reward_buffer smoothing
        = (decide (c.threshold < progress), smoothing)) ∧
    need_increment progressCriteria05 0.51 [Flt.val 0] 0 = (true, 0) ∧
    need_increment progressCriteria05 0.5 [Flt.val 0] 0 = (false, 0) := by
  refine ⟨fun c progress reward_buffer smoothing hm hg => ?_, ?_, ?_⟩
  · by_cases hp : c.threshold < progress <;> simp [need_increment, hm, hg, hp]
  · norm_num [progressCriteria05, need_increment]
  · norm_num [progressCriteria05, need_increment]
    decide

/-- Witness for C8: the general part applied to the concrete PROGRESS
criteria at progress 0.51 (above threshold) with smoothing 0.2. -/
theorem claim_C8_progress_strict_threshold_witness :
    progressCriteria05.measure = MeasureType.PROGRESS ∧
    ¬ ((([Flt.val 0] : List Flt).length : Int) <
        progressCriteria05.min_lesson_length) ∧
    need_increment progressCriteria05 0.51 [Flt.val 0] 0.2
      = (decide (progressCriteria05.threshold < 0.51), 0.2) :=
  ⟨rfl, by decide,
   claim_C8_progress_strict_threshold.1 progressCriteria05 0.51 [Flt.val 0] 0.2
     rfl (by decide)⟩

/-- C2: for a REWARD criteria with smoothing enabled, passing the
buffer-length gate with non-NaN mean `m` and prior smoothing `s`, the
evaluator computes `measure = 0.25 * s + 0.75 * m`, returns that measure as
the new smoothing value, and increments iff `measure > threshold` strictly;
concretely, with threshold 0.9, buffer `[1,1,1,1]` and minLessonLength 4, a
first call with prior smoothing 0 returns `(false, 0.75)` and a second call
with prior smoothing 0.75 returns `(true, 0.9375)`. -/
theorem claim_C2_reward_smoothing :
    (∀ (c : CompletionCriteriaSettings) (progress : ℚ)
        (reward_buffer : List Flt) (smoothing m : ℚ),
      c.measure = MeasureType.REWARD →
      c.signal_smoothing = true →
      ¬ ((reward_buffer.length : Int) < c.min_lesson_length) →
      npMean reward_buffer = Flt.val m →
      need_increment c progress reward_buffer smoothing
        = (decide (c.threshold < 0.25 * smoothing + 0.75 * m),
           0.25 * smoothing + 0.75 * m)) ∧
    need_increment rewardCriteria09 0 unitBuf4 0 = (false, 0.75) ∧
    need_increment rewardCriteria09 0 unitBuf4 0.75 = (true, 0.9375) := by
  refine ⟨fun c progress reward_buffer smoothing m hm hs hg hmean => ?_, ?_, ?_⟩
  · have hne : reward_buffer ≠ [] := by
      intro he
      rw [he] at hmean
      exact Flt.noConfusion hmean
    by_cases hp : c.threshold < 0.25 * smoothing + 0.75 * m <;>
      simp [need_increment, hm, hs, hg, hmean, hp, Nat.lt_one_iff,
        List.length_eq_zero, hne]
  · norm_num [rewardCriteria09, unitBuf4, need_increment, npMean, fltSum, Flt.add]
  · norm_num [rewardCriteria09, unitBuf4, need_increment, npMean, fltSum, Flt.add]

/-- Witness for C2: the general part applied to the concrete REWARD
criteria, second step: smoothing 0.75 and mean 1 give measure 0.9375. -/
theorem claim_C2_reward_smoothing_witness :
    rewardCriteria09.measure = MeasureType.REWARD ∧
    rewardCriteria09.signal_smoothing = true ∧
    ¬ ((unitBuf4.length : Int) < rewardCriteria09.min_lesson_length) ∧
    npMean unitBuf4 = Flt.val 1 ∧
    need_increment rewardCriteria09 0 unitBuf4 0.75
      = (decide (rewardCriteria09.threshold < 0.25 * 0.75 + 0.75 * 1),
         0.25 * 0.75 + 0.75 * 1) :=
  ⟨rfl, rfl, by decide, by norm_num [unitBuf4, npMean, fltSum, Flt.add],
   claim_C2_reward_smoothing.1 rewardCriteria09 0 unitBuf4 0.75 1 rfl rfl
     (by decide) (by norm_num [unitBuf4, npMean, fltSum, Flt.add])⟩

/-- All lessons of all parameters, parameters in enumeration order and
lessons in sequence order (the iteration order of both `_set_sampler_seeds`
and `get_minimum_reward_buffer_size`). -/
def allLessons (params : List (String × EnvironmentParameterSettings)) :
    List Lesson :=
  (params.map (fun p => p.2.lessons)).flatten

/-- Spec-side: the minLessonLength values of the lessons whose completion
criteria targets `behavior_name`, in iteration order. -/
def matchingMins (behavior_name : String) (ls : List Lesson) : List Int :=
  ls.filterMap (fun lesson =>
    match lesson.completion_criteria with
    | none => none
    | some c =>
      if c.behavior = behavior_name then some c.min_lesson_length else none)

/-- Spec-side: the matching minLessonLength values across every lesson of
every parameter. -/
def specMatchingMinLengths
    (params : List (String × EnvironmentParameterSettings))
    (behavior_name : String) : List Int :=
  matchingMins behavior_name (allLessons params)

/-- Spec-side: the maximum of the matching minLessonLength values, `none`
when no lesson matches. This is the value the claim says the function
returns in the matching case. -/
def specMaxMatching (params : List (String × EnvironmentParameterSettings))
    (behavior_name : String) : Option Int :=
  match specMatchingMinLengths params behavior_name with
  | [] => none
  | x :: xs => some (xs.foldl max x)

theorem lessons_foldl_eq_matching (behavior_name : String) (ls : List Lesson)
    (r : Int) :
    ls.foldl
      (fun result lesson =>
        match lesson.completion_criteria with
        | none => result
        | some c =>
          if c.behavior = behavior_name then max result c.min_lesson_length
          else result)
      r
    = (matchingMins behavior_name ls).foldl max r := by
  induction ls generalizing r with
  | nil => rfl
  | cons l tl ih =>
    simp only [matchingMins, List.filterMap_cons, List.foldl_cons]
    cases hc : l.completion_criteria with
    | none => simpa [matchingMins] using ih r
    | some c =>
      by_cases hb : c.behavior = behavior_name
      · simpa [matchingMins, hb] using ih (max r c.min_lesson_length)
      · simpa [matchingMins, hb] using ih r

theorem min_buffer_size_foldl
    (params : List (String × EnvironmentParameterSettings))
    (behavior_name : String) (r : Int) :
    params.foldl
      (fun result p =>
        p.2.lessons.foldl
          (fun result lesson =>
            match lesson.completion_criteria with
            | none => result
            | some c =>
              if c.behavior = behavior_name then max result c.min_lesson_length
              else result)
          result)
      r
    = (matchingMins behavior_name (allLessons params)).foldl max r := by
  induction params generalizing r with
  | nil => rfl
  | cons p rest ih =>
    simp only [List.foldl_cons, allLessons, List.map_cons, List.flatten_cons,
      matchingMins, List.filterMap_append, List.foldl_append]
    rw [lessons_foldl_eq_matching behavior_name p.2.lessons r]
    simpa [allLessons, matchingMins] using
      ih ((matchingMins behavior_name p.2.lessons).foldl max r)

/-- C7 (amended): `get_minimum_reward_buffer_size` returns the maximum of 1
and the minLessonLength values of the lessons whose completion criteria
targets the behavior (a left fold of `max` starting at 1); in particular it
returns 1 when no lesson matches. It does not return the plain maximum of
the matching values: when every matching value is below 1 the result is
still 1 (see the counterexample). -/
theorem claim_C7_min_buffer_size_amended
    (params : List (String × EnvironmentParameterSettings))
    (behavior_name : String) :
    get_minimum_reward_buffer_size params behavior_name
      = (specMatchingMinLengths params behavior_name).foldl max 1
    ∧ (specMatchingMinLengths params behavior_name = [] →
        get_minimum_reward_buffer_size params behavior_name = 1) := by
  constructor
  · exact min_buffer_size_foldl params behavior_name 1
  · intro he
    rw [get_minimum_reward_buffer_size, min_buffer_size_foldl params behavior_name 1]
    rw [specMatchingMinLengths] at he
    rw [he]
    rfl

/-- Parameters refuting C7 as stated: one lesson targeting behavior "b"
with minLessonLength 0. -/
def c7CexParams : List (String × EnvironmentParameterSettings) :=
  [("param",
    ⟨[⟨"lesson0", ⟨3⟩, some ⟨"b", MeasureType.REWARD, 0, 0, false, false⟩⟩]⟩)]

/-- Counterexample to C7 as stated: with one matching lesson of
minLessonLength 0, the maximum of the matching values is 0, but the
function returns 1, so in the matching case the result is not the maximum
of the matching minLessonLength values. -/
theorem claim_C7_min_buffer_size_counterexample :
    specMatchingMinLengths c7CexParams "b" ≠ [] ∧
    some (get_minimum_reward_buffer_size c7CexParams "b")
      ≠ specMaxMatching c7CexParams "b" := by
  decide

/-- Witness for C7 (amended): the theorem applied to the counterexample
parameters (fold value 1) and to the empty parameter list (no match gives
1). -/
theorem claim_C7_min_buffer_size_amended_witness :
    get_minimum_reward_buffer_size c7CexParams "b"
      = (specMatchingMinLengths c7CexParams "b").foldl max 1
    ∧ get_minimum_reward_buffer_size [] "b" = 1 :=
  ⟨(claim_C7_min_buffer_size_amended c7CexParams "b").1,
   (claim_C7_min_buffer_size_amended [] "b").2 rfl⟩

theorem init_store_persists_zero (restore : Bool) (n : String)
    (names : List String) (store : String → Option Int)
    (h : store n = some 0) :
    (init_lesson_store restore names store).1 n = some 0 := by
  induction names generalizing store with
  | nil => simpa [init_lesson_store] using h
  | cons m rest ih =>
    rw [init_lesson_store]
    by_cases hw : ((store m).isNone || !restore) = true
    · rw [if_pos hw]
      apply ih
      by_cases hmn : n = m <;> simp [hmn, h]
    · rw [if_neg hw]
      exact ih store h

theorem init_store_untouched (restore : Bool) (n : String)
    (names : List String) (store : String → Option Int)
    (h : n ∉ names) :
    (init_lesson_store restore names store).1 n = store n
    ∧ n ∉ ((init_lesson_store restore names store).2.map Prod.fst) := by
  induction names generalizing store with
  | nil => simp [init_lesson_store]
  | cons m rest ih =>
    have hmn : n ≠ m := fun he => h (he ▸ List.mem_cons_self m rest)
    have hrest : n ∉ rest := fun he => h (List.mem_cons_of_mem m he)
    rw [init_lesson_store]
    by_cases hw : ((store m).isNone || !restore) = true
    · rw [if_pos hw]
      refine ⟨?_, ?_⟩
      · rw [(ih _ hrest).1]
        simp [hmn]
      · simpa [hmn] using (ih _ hrest).2
    · rw [if_neg hw]
      exact ih store hrest

theorem init_store_writes_zero (restore : Bool) (n : String)
    (names : List String) (store : String → Option Int)
    (hn : n ∈ names) (h : store n = none ∨ restore = false) :
    (init_lesson_store restore names store).1 n = some 0
    ∧ (n, 0) ∈ (init_lesson_store restore names store).2 := by
  induction names generalizing store with
  | nil => cases hn
  | cons m rest ih =>
    rw [init_lesson_store]
    by_cases hmn : n = m
    · subst hmn
      have hw : ((store n).isNone || !restore) = true := by
        rcases h with h | h <;> simp [h]
      rw [if_pos hw]
      refine ⟨?_, by simp⟩
      apply init_store_persists_zero
      simp
    · have hrest : n ∈ rest := by
        rcases List.mem_cons.mp hn with he | he
        · exact absurd he hmn
        · exact he
      by_cases hw : ((store m).isNone || !restore) = true
      · rw [if_pos hw]
        have h1 : (fun k => if k = m then some 0 else store k) n = none
            ∨ restore = false := by
          rcases h with h | h
          · exact Or.inl (by simp [hmn, h])
          · exact Or.inr h
        refine ⟨(ih _ hrest h1).1, List.mem_cons_of_mem _ (ih _ hrest h1).2⟩
      · rw [if_neg hw]
        exact ih store hrest h

theorem init_store_restores (restore : Bool) (n : String) (v : Int)
    (names : List String) (store : String → Option Int)
    (hr : restore = true) (hv : store n = some v) :
    (init_lesson_store restore names store).1 n = some v
    ∧ n ∉ ((init_lesson_store restore names store).2.map Prod.fst) := by
  induction names generalizing store with
  | nil => simpa [init_lesson_store] using hv
  | cons m rest ih =>
    rw [init_lesson_store]
    by_cases hw : ((store m).isNone || !restore) = true
    · have hm : store m = none := by
        rcases Bool.or_eq_true_iff.mp hw with h | h
        · exact Option.isNone_iff_eq_none.mp h
        · rw [hr] at h
          cases h
      have hmn : n ≠ m := by
        intro he
        rw [he, hm] at hv
        cases hv
      rw [if_pos hw]
      have hv1 : (fun k => if k = m then some 0 else store k) n = some v := by
        simp [hmn, hv]
      refine ⟨(ih _ hv1).1, ?_⟩
      simpa [hmn] using (ih _ hv1).2
    · rw [if_neg hw]
      exact ih store hv

/-- C6: at construction, for every parameter: when `restore` is false or
the persisted store has no lesson index for it, the store ends up holding
lesson index 0 and a write of 0 was performed; when `restore` is true and a
prior value exists, the final store still holds that value and no write to
that parameter was performed. -/
theorem claim_C6_construction_restore (restore : Bool) (names : List String)
    (store : String → Option Int) (n : String) (hn : n ∈ names) :
    ((store n = none ∨ restore = false) →
      (init_lesson_store restore names store).1 n = some 0
      ∧ (n, 0) ∈ (init_lesson_store restore names store).2) ∧
    (∀ v : Int, restore = true → store n = some v →
      (init_lesson_store restore names store).1 n = some v
      ∧ n ∉ ((init_lesson_store restore names store).2.map Prod.fst)) :=
  ⟨fun h => init_store_writes_zero restore n names store hn h,
   fun v hr hv => init_store_restores restore n v names store hr hv⟩

/-- Witness for C6: with parameters `["p", "q"]`, a persisted index 2 for
"p" and nothing for "q", under `restore = true` the store keeps 2 for "p"
with no write to "p", and writes 0 for "q". -/
theorem claim_C6_construction_restore_witness :
    (("q" : String) ∈ ["p", "q"]) ∧ (("p" : String) ∈ ["p", "q"]) ∧
    ((init_lesson_store true ["p", "q"]
        (fun k => if k = "p" then some 2 else none)).1 "q" = some 0
      ∧ ("q", 0) ∈ (init_lesson_store true ["p", "q"]
        (fun k => if k = "p" then some 2 else none)).2) ∧
    ((init_lesson_store true ["p", "q"]
        (fun k => if k = "p" then some 2 else none)).1 "p" = some 2
      ∧ "p" ∉ ((init_lesson_store true ["p", "q"]
        (fun k => if k = "p" then some 2 else none)).2.map Prod.fst)) :=
  ⟨by decide, by decide,
   (claim_C6_construction_restore true ["p", "q"]
      (fun k => if k = "p" then some 2 else none) "q" (by decide)).1
     (Or.inl (by decide)),
   (claim_C6_construction_restore true ["p", "q"]
      (fun k => if k = "p" then some 2 else none) "p" (by decide)).2 2 rfl
     (by decide)⟩

/-- A lesson with its sampler seed replaced. -/
def withSeed (l : Lesson) (s : Int) : Lesson :=
  { l with sampler := { l.sampler with seed := s } }

/-- Number of lessons with the unassigned sentinel seed -1 in a list. -/
def countUnassigned (ls : List Lesson) : Nat :=
  (ls.filter (fun l => l.sampler.seed = -1)).length

/-- Spec-side: what the claim says the lesson at flat position `i` of the
enumeration `L` becomes: a sentinel lesson receives `runSeed + k` where `k`
is the number of sentinel lessons strictly before it, any other lesson is
unchanged. -/
def specAssignedLesson (seed : Int) (L : List Lesson) (i : Nat) (l : Lesson) :
    Lesson :=
  if l.sampler.seed = -1 then withSeed l (seed + countUnassigned (L.take i))
  else l

theorem setSeedsLessons_length (seed : Int) (offset : Nat) (ls : List Lesson) :
    (setSeedsLessons seed offset ls).1.length = ls.length := by
  induction ls generalizing offset with
  | nil => rfl
  | cons l tl ih =>
    by_cases h : l.sampler.seed = -1 <;> simp [setSeedsLessons, h, ih]

theorem setSeedsLessons_append (seed : Int) (offset : Nat) (xs ys : List Lesson) :
    setSeedsLessons seed offset (xs ++ ys)
      = ((setSeedsLessons seed offset xs).1
          ++ (setSeedsLessons seed (setSeedsLessons seed offset xs).2 ys).1,
         (setSeedsLessons seed (setSeedsLessons seed offset xs).2 ys).2) := by
  induction xs generalizing offset with
  | nil => simp [setSeedsLessons]
  | cons x tl ih =>
    by_cases h : x.sampler.seed = -1 <;> simp [setSeedsLessons, h, ih]

theorem setSeedsParams_allLessons (seed : Int) (offset : Nat)
    (params : List (String × EnvironmentParameterSettings)) :
    allLessons ((setSeedsParams seed offset params).1)
      = (setSeedsLessons seed offset (allLessons params)).1 := by
  induction params generalizing offset with
  | nil => rfl
  | cons p rest ih =>
    obtain ⟨n, s⟩ := p
    simp only [setSeedsParams, allLessons, List.map_cons, List.flatten_cons,
      setSeedsLessons_append]
    rw [← allLessons]
    rw [ih (setSeedsLessons seed offset s.lessons).2]
    rfl

theorem setSeedsLessons_get (seed : Int) (offset : Nat) (ls : List Lesson)
    (i : Nat) :
    (setSeedsLessons seed offset ls).1[i]?
      = (ls[i]?).map (fun l =>
          if l.sampler.seed = -1 then
            withSeed l (seed + offset + countUnassigned (ls.take i))
          else l) := by
  induction ls generalizing offset i with
  | nil => simp [setSeedsLessons]
  | cons l tl ih =>
    cases i with
    | zero =>
      by_cases h : l.sampler.seed = -1 <;>
        simp [setSeedsLessons, h, withSeed, countUnassigned]
    | succ n =>
      by_cases h : l.sampler.seed = -1
      · simp only [setSeedsLessons, h, if_true, List.getElem?_cons_succ,
          List.take_succ_cons]
        rw [ih (offset + 1) n]
        cases htl : tl[n]? with
        | none => simp
        | some x =>
          by_cases hx : x.sampler.seed = -1 <;>
            simp [hx, withSeed, countUnassigned, List.filter_cons, h]
          omega
      · simp only [setSeedsLessons, h, if_false, List.getElem?_cons_succ,
          List.take_succ_cons]
        rw [ih offset n]
        cases htl : tl[n]? with
        | none => simp
        | some x =>
          by_cases hx : x.sampler.seed = -1 <;>
            simp [hx, withSeed, countUnassigned, List.filter_cons, h]

theorem countUnassigned_take_lt (L : List Lesson) (i j : Nat) (hij : i < j)
    (li : Lesson) (hi : L[i]? = some li) (hs : li.sampler.seed = -1) :
    countUnassigned (L.take i) < countUnassigned (L.take j) := by
  have h1 : countUnassigned (L.take (i + 1))
      = countUnassigned (L.take i) + 1 := by
    rw [List.take_succ, hi]
    simp [countUnassigned, List.filter_append, hs]
  have h2 : countUnassigned (L.take (i + 1))
      ≤ countUnassigned (L.take j) := by
    have hj : L.take j = L.take (i + 1) ++ (L.drop (i + 1)).take (j - (i + 1)) := by
      rw [← List.take_add]
      congr 1
      omega
    rw [hj]
    simp [countUnassigned, List.filter_append]
  omega

/-- C5: seed assignment is deterministic and conservative. Enumerating all
lessons of all parameters in order: the assignment preserves the shape, a
lesson whose sampler seed is the sentinel -1 becomes that lesson with seed
`runSeed + k` where `k` counts the sentinel lessons strictly before it
(starting at 0), a lesson with an explicit seed is unchanged, and two
distinct auto-assigned lessons receive distinct seeds. -/
theorem claim_C5_seed_assignment (seed : Int)
    (params : List (String × EnvironmentParameterSettings)) :
    (allLessons (set_sampler_seeds seed params)).length
      = (allLessons params).length
    ∧ (∀ i : Nat,
        (allLessons (set_sampler_seeds seed params))[i]?
          = ((allLessons params)[i]?).map
              (specAssignedLesson seed (allLessons params) i))
    ∧ (∀ i j : Nat, ∀ li lj li1 lj1 : Lesson, i < j →
        (allLessons params)[i]? = some li →
        (allLessons params)[j]? = some lj →
        li.sampler.seed = -1 → lj.sampler.seed = -1 →
        (allLessons (set_sampler_seeds seed params))[i]? = some li1 →
        (allLessons (set_sampler_seeds seed params))[j]? = some lj1 →
        li1.sampler.seed ≠ lj1.sampler.seed) := by
  have hall : allLessons (set_sampler_seeds seed params)
      = (setSeedsLessons seed 0 (allLessons params)).1 :=
    setSeedsParams_allLessons seed 0 params
  have hget : ∀ i : Nat,
      (allLessons (set_sampler_seeds seed params))[i]?
        = ((allLessons params)[i]?).map
            (specAssignedLesson seed (allLessons params) i) := by
    intro i
    rw [hall, setSeedsLessons_get seed 0 (allLessons params) i]
    cases h : (allLessons params)[i]? with
    | none => simp
    | some x =>
      by_cases hx : x.sampler.seed = -1 <;>
        simp [hx, specAssignedLesson, withSeed]
  refine ⟨by rw [hall, setSeedsLessons_length], hget, ?_⟩
  intro i j li lj li1 lj1 hij hi hj hsi hsj hi1 hj1
  have hgi := hget i
  have hgj := hget j
  rw [hi1, hi] at hgi
  rw [hj1, hj] at hgj
  have hvi : li1 = withSeed li (seed + countUnassigned ((allLessons params).take i)) := by
    have := hgi
    simpa [specAssignedLesson, hsi] using this
  have hvj : lj1 = withSeed lj (seed + countUnassigned ((allLessons params).take j)) := by
    have := hgj
    simpa [specAssignedLesson, hsj] using this
  have hlt := countUnassigned_take_lt (allLessons params) i j hij li hi hsi
  rw [hvi, hvj]
  simp only [withSeed]
  intro he
  omega

/-- Concrete parameters for the C5 witness: two sentinel lessons separated
by one explicitly seeded lesson, across two parameters. -/
def c5Params : List (String × EnvironmentParameterSettings) :=
  [("p1", ⟨[⟨"a", ⟨-1⟩, none⟩, ⟨"b", ⟨7⟩, none⟩]⟩),
   ("p2", ⟨[⟨"c", ⟨-1⟩, none⟩]⟩)]

/-- Witness for C5: with run seed 100, the sentinel lessons "a" and "c" get
seeds 100 and 101, lesson "b" keeps seed 7, and the two auto-assigned
seeds are distinct. -/
theorem claim_C5_seed_assignment_witness :
    (allLessons (set_sampler_seeds 100 c5Params)).length
      = (allLessons c5Params).length
    ∧ (allLessons (set_sampler_seeds 100 c5Params))[1]?
        = ((allLessons c5Params)[1]?).map
            (specAssignedLesson 100 (allLessons c5Params) 1)
    ∧ (⟨"a", ⟨100⟩, none⟩ : Lesson).sampler.seed
        ≠ (⟨"c", ⟨101⟩, none⟩ : Lesson).sampler.seed :=
  ⟨(claim_C5_seed_assignment 100 c5Params).1,
   (claim_C5_seed_assignment 100 c5Params).2.1 1,
   (claim_C5_seed_assignment 100 c5Params).2.2 0 2
     ⟨"a", ⟨-1⟩, none⟩ ⟨"c", ⟨-1⟩, none⟩ ⟨"a", ⟨100⟩, none⟩ ⟨"c", ⟨101⟩, none⟩
     (by decide) (by decide) (by decide) (by decide) (by decide)
     (by decide) (by decide)⟩

theorem processParam_skip (steps maxSteps : String → Option Int)
    (bufs : String → Option (List Flt)) (param_name : String)
    (settings : EnvironmentParameterSettings) (st : ManagerState)
    (updated must_reset : Bool) (lesson_num : Int) (lesson : Lesson)
    (h1 : st.store param_name = some lesson_num)
    (h2 : pyGet settings.lessons lesson_num = some lesson)
    (h3 : lesson.completion_criteria = none) :
    processParam steps maxSteps bufs param_name settings st updated must_reset
      = (.ok (updated, must_reset), st) := by
  simp [processParam, h1, h2, h3]

theorem processParam_frame (steps maxSteps : String → Option Int)
    (bufs : String → Option (List Flt)) (param_name : String)
    (settings : EnvironmentParameterSettings) (st : ManagerState)
    (updated must_reset : Bool) (k : String) (hk : k ≠ param_name) :
    (processParam steps maxSteps bufs param_name settings st updated must_reset).2.store k
      = st.store k
    ∧ (processParam steps maxSteps bufs param_name settings st updated must_reset).2.smoothing k
      = st.smoothing k := by
  simp only [processParam]
  repeat' split
  all_goals simp [ManagerState.setSmoothing, ManagerState.setLesson, hk]

theorem updateLessonsAux_frame (steps maxSteps : String → Option Int)
    (bufs : String → Option (List Flt))
    (params : List (String × EnvironmentParameterSettings))
    (st : ManagerState) (updated must_reset : Bool) (k : String)
    (hk : k ∉ params.map Prod.fst) :
    (updateLessonsAux steps maxSteps bufs params st updated must_reset).2.store k
      = st.store k
    ∧ (updateLessonsAux steps maxSteps bufs params st updated must_reset).2.smoothing k
      = st.smoothing k := by
  induction params generalizing st updated must_reset with
  | nil => simp [updateLessonsAux]
  | cons p rest ih =>
    obtain ⟨name, s⟩ := p
    have hk1 : k ≠ name := by
      intro he
      exact hk (by simp [he])
    have hk2 : k ∉ rest.map Prod.fst := by
      intro he
      exact hk (by simp [he])
    have hfr := processParam_frame steps maxSteps bufs name s st updated
      must_reset k hk1
    rw [updateLessonsAux]
    rcases hp : processParam steps maxSteps bufs name s st updated must_reset
      with ⟨res, st1⟩
    rw [hp] at hfr
    cases res with
    | error e => exact hfr
    | ok v =>
      obtain ⟨u1, r1⟩ := v
      refine ⟨?_, ?_⟩
      · rw [(ih st1 u1 r1 hk2).1]
        exact hfr.1
      · rw [(ih st1 u1 r1 hk2).2]
        exact hfr.2

theorem updateLessonsAux_append (steps maxSteps : String → Option Int)
    (bufs : String → Option (List Flt))
    (xs ys : List (String × EnvironmentParameterSettings))
    (st : ManagerState) (updated must_reset : Bool) :
    updateLessonsAux steps maxSteps bufs (xs ++ ys) st updated must_reset
      = match updateLessonsAux steps maxSteps bufs xs st updated must_reset with
        | (.error e, st1) => (.error e, st1)
        | (.ok (u1, r1), st1) => updateLessonsAux steps maxSteps bufs ys st1 u1 r1 := by
  induction xs generalizing st updated must_reset with
  | nil => simp [updateLessonsAux]
  | cons p rest ih =>
    obtain ⟨name, s⟩ := p
    rw [List.cons_append, updateLessonsAux, updateLessonsAux]
    rcases processParam steps maxSteps bufs name s st updated must_reset
      with ⟨res, st1⟩
    cases res with
    | error e => rfl
    | ok v =>
      obtain ⟨u1, r1⟩ := v
      exact ih st1 u1 r1

/-- C10: a parameter whose current lesson has no completion criteria is
skipped by `update_lessons`: the whole call behaves as if the parameter
were absent, and the parameter's persisted lesson index and in-memory
smoothing value are unchanged — in particular it contributes nothing to the
returned `updated` and `must_reset` flags. -/
theorem claim_C10_no_criteria_frame (steps maxSteps : String → Option Int)
    (bufs : String → Option (List Flt))
    (pre post : List (String × EnvironmentParameterSettings))
    (param_name : String) (s : EnvironmentParameterSettings)
    (st : ManagerState) (lesson_num : Int) (lesson : Lesson)
    (hpre : param_name ∉ pre.map Prod.fst)
    (hpost : param_name ∉ post.map Prod.fst)
    (h1 : st.store param_name = some lesson_num)
    (h2 : pyGet s.lessons lesson_num = some lesson)
    (h3 : lesson.completion_criteria = none) :
    update_lessons steps maxSteps bufs (pre ++ (param_name, s) :: post) st
      = update_lessons steps maxSteps bufs (pre ++ post) st
    ∧ (update_lessons steps maxSteps bufs (pre ++ (param_name, s) :: post) st).2.store param_name
      = st.store param_name
    ∧ (update_lessons steps maxSteps bufs (pre ++ (param_name, s) :: post) st).2.smoothing param_name
      = st.smoothing param_name := by
  have hmain : update_lessons steps maxSteps bufs (pre ++ (param_name, s) :: post) st
      = update_lessons steps maxSteps bufs (pre ++ post) st := by
    rw [update_lessons, update_lessons, updateLessonsAux_append,
      updateLessonsAux_append]
    rcases hx : updateLessonsAux steps maxSteps bufs pre st false false
      with ⟨res, st1⟩
    cases res with
    | error e => rfl
    | ok v =>
      obtain ⟨u1, r1⟩ := v
      have hst1 : st1.store param_name = some lesson_num := by
        have hfr := (updateLessonsAux_frame steps maxSteps bufs pre st false
          false param_name hpre).1
        rw [hx] at hfr
        rw [hfr]
        exact h1
      show updateLessonsAux steps maxSteps bufs ((param_name, s) :: post) st1 u1 r1
        = updateLessonsAux steps maxSteps bufs post st1 u1 r1
      rw [updateLessonsAux,
        processParam_skip steps maxSteps bufs param_name s st1 u1 r1
          lesson_num lesson hst1 h2 h3]
  have hboth : param_name ∉ (pre ++ post).map Prod.fst := by
    rw [List.map_append]
    intro hm
    rcases List.mem_append.mp hm with hm | hm
    · exact hpre hm
    · exact hpost hm
  have hfr := updateLessonsAux_frame steps maxSteps bufs (pre ++ post) st
    false false param_name hboth
  exact ⟨hmain, by rw [hmain]; exact hfr.1, by rw [hmain]; exact hfr.2⟩

/-- Witness for C10: one parameter "q" whose single lesson has no criteria,
following a parameter "p" whose lesson has none either (both are skipped);
the call is a no-op equal to the run without "q", and the store and
smoothing entries of "q" are untouched. -/
theorem claim_C10_no_criteria_frame_witness :
    update_lessons (fun _ => none) (fun _ => none) (fun _ => none)
        ([("p", ⟨[⟨"l", ⟨1⟩, none⟩]⟩)] ++ ("q", ⟨[⟨"m", ⟨2⟩, none⟩]⟩) :: [])
        ⟨fun _ => some 0, fun _ => 0⟩
      = update_lessons (fun _ => none) (fun _ => none) (fun _ => none)
          ([("p", ⟨[⟨"l", ⟨1⟩, none⟩]⟩)] ++ [])
          ⟨fun _ => some 0, fun _ => 0⟩
    ∧ (update_lessons (fun _ => none) (fun _ => none) (fun _ => none)
        ([("p", ⟨[⟨"l", ⟨1⟩, none⟩]⟩)] ++ ("q", ⟨[⟨"m", ⟨2⟩, none⟩]⟩) :: [])
        ⟨fun _ => some 0, fun _ => 0⟩).2.store "q" = some 0
    ∧ (update_lessons (fun _ => none) (fun _ => none) (fun _ => none)
        ([("p", ⟨[⟨"l", ⟨1⟩, none⟩]⟩)] ++ ("q", ⟨[⟨"m", ⟨2⟩, none⟩]⟩) :: [])
        ⟨fun _ => some 0, fun _ => 0⟩).2.smoothing "q" = 0 :=
  (claim_C10_no_criteria_frame (fun _ => none) (fun _ => none) (fun _ => none)
    [("p", ⟨[⟨"l", ⟨1⟩, none⟩]⟩)] [] "q" ⟨[⟨"m", ⟨2⟩, none⟩]⟩
    ⟨fun _ => some 0, fun _ => 0⟩ 0 ⟨"m", ⟨2⟩, none⟩
    (by decide) (by decide) rfl (by decide) rfl)

theorem pyGet_lt (l : List Lesson) (i : Int) (x : Lesson)
    (h : pyGet l i = some x) : i < (l.length : Int) := by
  rw [pyGet] at h
  split_ifs at h with h0 h1
  · rcases List.get?_eq_some.mp h with ⟨hlt, _⟩
    omega
  · omega

/-- C4 (amended): a zero maximum-step count for a behavior referenced by an
active completion criteria makes the call fail explicitly (Python's
ZeroDivisionError on the float division), with the state unchanged; it is
never silently turned into an infinite or NaN progress value. A negative
maximum-step count, however, is not rejected: the call silently computes a
finite negative progress ratio and compares it against the threshold (see
the counterexample). -/
theorem claim_C4_zero_max_steps_amended (steps maxSteps : String → Option Int)
    (bufs : String → Option (List Flt)) (param_name : String)
    (s : EnvironmentParameterSettings) (st : ManagerState)
    (lesson_num : Int) (lesson : Lesson) (c : CompletionCriteriaSettings)
    (stepCount : Int)
    (h1 : st.store param_name = some lesson_num)
    (h2 : pyGet s.lessons lesson_num = some lesson)
    (h3 : lesson.completion_criteria = some c)
    (h4 : steps c.behavior = some stepCount)
    (h5 : maxSteps c.behavior = some 0) :
    update_lessons steps maxSteps bufs [(param_name, s)] st
      = (.error .zeroDivisionError, st) := by
  have hlt : lesson_num < (s.lessons.length : Int) := pyGet_lt _ _ _ h2
  simp [update_lessons, updateLessonsAux, processParam, h1, h2, h3, h4, h5, hlt]

/-- Parameters for the C4 counterexample and witness: a single lesson with
an active PROGRESS criteria on behavior "beh", threshold 0.5. -/
def c4Settings : EnvironmentParameterSettings :=
  ⟨[⟨"l", ⟨3⟩, some ⟨"beh", MeasureType.PROGRESS, 0, 1/2, false, false⟩⟩]⟩

/-- The parameter list of the C4 counterexample run. -/
def c4Params : List (String × EnvironmentParameterSettings) :=
  [("p", c4Settings)]

/-- Initial state for the C4 and C1 runs: every parameter at lesson 0,
smoothing 0. -/
def zeroState : ManagerState := ⟨fun _ => some 0, fun _ => 0⟩

/-- Counterexample to C4 as stated: with step count 1 and maximum-step
count -1 (negative) for the behavior of an active completion criteria, the
call does not fail — it returns `(ok (false, false))`, silently comparing
the finite negative progress ratio -1 against the threshold. -/
theorem claim_C4_counterexample :
    (update_lessons (fun b => if b = "beh" then some 1 else none)
      (fun b => if b = "beh" then some (-1) else none)
      (fun b => if b = "beh" then some [] else none)
      c4Params zeroState).1 = .ok (false, false) := by
  norm_num [update_lessons, updateLessonsAux, processParam, pyGet,
    need_increment, npMean, fltSum, c4Params, c4Settings, zeroState]

/-- Witness for C4 (amended): the same configuration with maximum-step
count 0 raises the division error and leaves the state unmodified. -/
theorem claim_C4_zero_max_steps_amended_witness :
    zeroState.store "p" = some 0 ∧
    pyGet c4Settings.lessons 0
      = some ⟨"l", ⟨3⟩, some ⟨"beh", MeasureType.PROGRESS, 0, 1/2, false, false⟩⟩ ∧
    update_lessons (fun b => if b = "beh" then some 1 else none)
      (fun b => if b = "beh" then some 0 else none)
      (fun b => if b = "beh" then some [] else none)
      [("p", c4Settings)] zeroState
      = (.error .zeroDivisionError, zeroState) :=
  ⟨rfl, by norm_num [c4Settings, pyGet], by
    refine claim_C4_zero_max_steps_amended _ _ _ "p" c4Settings zeroState
      0 ⟨"l", ⟨3⟩, some ⟨"beh", MeasureType.PROGRESS, 0, 1/2, false, false⟩⟩
      ⟨"beh", MeasureType.PROGRESS, 0, 1/2, false, false⟩ 1
      rfl (by norm_num [c4Settings, pyGet]) rfl (by norm_num) (by norm_num)⟩

/-- The single lesson of the C1 run: an active PROGRESS criteria with
threshold -1 and minLessonLength 0, so its completion criteria is met at
progress 0; it is the last lesson of its parameter. -/
def c1Lesson : Lesson :=
  ⟨"only", ⟨3⟩, some ⟨"beh", MeasureType.PROGRESS, 0, -1, false, false⟩⟩

/-- One parameter "p" whose lesson sequence has exactly one lesson, the C1
failing input. -/
def c1Settings : EnvironmentParameterSettings := ⟨[c1Lesson]⟩

/-- The parameter list of the C1 failing run. -/
def c1Params : List (String × EnvironmentParameterSettings) :=
  [("p", c1Settings)]

/-- C1 (code behavior at the failing input): when the current (last) lesson
of a parameter has a completion criteria that is met, `update_lessons`
persists the out-of-range lesson index 1 (the parameter has only 1 lesson)
and then raises an IndexError on the post-increment lesson lookup: the
guard `len(settings.lessons) > lesson_num` does not ensure a next lesson
exists, contradicting the claimed invariant that the persisted lesson index
always stays in range (increment only when a next lesson exists). -/
theorem claim_C1_unguarded_increment_failing_run :
    (update_lessons (fun b => if b = "beh" then some 0 else none)
      (fun b => if b = "beh" then some 1 else none)
      (fun b => if b = "beh" then some [] else none)
      c1Params zeroState).1 = .error .indexError
    ∧ (update_lessons (fun b => if b = "beh" then some 0 else none)
      (fun b => if b = "beh" then some 1 else none)
      (fun b => if b = "beh" then some [] else none)
      c1Params zeroState).2.store "p" = some 1
    ∧ c1Settings.lessons.length = 1 := by
  refine ⟨?_, ?_, rfl⟩ <;>
    norm_num [update_lessons, updateLessonsAux, processParam, pyGet,
      need_increment, npMean, fltSum, c1Params, c1Settings, c1Lesson,
      zeroState, ManagerState.setLesson, ManagerState.setSmoothing]

end MLAgentsEPM
